import Mathlib

/-!
Verification of the score-matrix engine in `matchms/Scores.py`.

The file shallowly embeds the `Scores` class: the similarity-function
collaborator, the numpy object matrix `_scores`, the constructor and its
argument validation, the strategy selection (`_chose_parallel_implementation`,
`calculate`), the naive fill (`calculate_sequential`, including the symmetric
half-matrix shortcut), the batched fill (`calculate_parallel`), the iterator
protocol (`__next__`), and the `scores` accessor.

Entities (references/queries) are opaque, modelled by a type parameter `E`;
numeric score values are opaque, modelled by a type parameter `V` (score
placement and shape, not score arithmetic, is what the engine manipulates).
numpy index assignment is modelled with an explicit bounds check returning
`Option` (`none` models an IndexError), so in-bounds claims are real theorems.
-/

section ScoresModel

variable {E V : Type}

/-- Python runtime errors that the embedded code can raise. -/
inductive PyError where
  | typeError
  | assertionError (msg : String)
deriving DecidableEq

/-- Runtime type tag of a Python argument, as far as the `isinstance` checks of
`Scores._validate_input_arguments` can observe it. -/
inductive PyTypeTag where
  | list
  | tuple
  | ndarray
  | other (tyname : String)
deriving DecidableEq

/-- Model of `isinstance(x, (list, tuple, numpy.ndarray))` on the runtime type tag. -/
def PyTypeTag.isSequenceLike : PyTypeTag → Bool
  | .list => true
  | .tuple => true
  | .ndarray => true
  | .other _ => false

/-- A value returned by `similarity_function.compute_scores` for one
(reference, query) pair: a single score or a tuple of score components. -/
inductive SVal (V : Type) where
  | scalar (v : V)
  | tup (vs : List V)
deriving DecidableEq

/-- One cell of the numpy object matrix `_scores`. `empty` models the `None`
content that `numpy.empty(..., dtype="object")` initialises cells with. -/
inductive Cell (V : Type) where
  | empty
  | val (s : SVal V)
deriving DecidableEq

/-- In `__next__`: `result = self._scores[r, c]`;
`if not isinstance(result, tuple): result = (result,)`. The yielded score
components are therefore: the tuple elements when the cell holds a tuple,
the single value otherwise (also the `None` of an unfilled cell). -/
def Cell.unpack : Cell V → List (Option V)
  | .empty => [none]
  | .val (.scalar v) => [some v]
  | .val (.tup vs) => vs.map some

/-- The numpy 2-D object array `_scores`: its shape and a total entry map. -/
structure ObjMatrix (V : Type) where
  rows : Nat
  cols : Nat
  entry : Nat → Nat → Cell V

/-- numpy element assignment `m[i][j] = v`: updates the entry when the indices
are in bounds, raises IndexError (modelled as `none`) otherwise. -/
def ObjMatrix.set (m : ObjMatrix V) (i j : Nat) (v : Cell V) : Option (ObjMatrix V) :=
  if i < m.rows ∧ j < m.cols then
    some { m with entry := fun a b => if a = i ∧ b = j then v else m.entry a b }
  else
    none

/-- Model of `m.size` of a numpy array: the number of elements. -/
def ObjMatrix.size (m : ObjMatrix V) : Nat := m.rows * m.cols

/-- Symmetry of the entry map of an object matrix. -/
def ObjMatrix.symmEntry (m : ObjMatrix V) : Prop :=
  ∀ a b, m.entry a b = m.entry b a

/-- The similarity-function collaborator.
`is_parallel` models `isinstance(f, ParallelSimilarityFunction)` (the marker
for the batched capability); `accepts_symmetric` models the runtime check
`"is_symmetric" in str(inspect.signature(f.compute_scores_parallel))`;
`compute_scores_parallel` receives the full reference and query lists and the
optionally-passed symmetry keyword (`none` when the call omits it). -/
structure SimilarityFunction (E V : Type) where
  is_parallel : Bool
  compute_scores : E → E → SVal V
  accepts_symmetric : Bool
  compute_scores_parallel : List E → List E → Option Bool → ObjMatrix V

/-- The state of a `Scores` object: the fields assigned by `__init__`
(`references` / `queries` keep their list contents; the (n_rows, 1) and
(1, n_cols) reshapes are views of exactly these contents). -/
structure Scores (E V : Type) where
  n_rows : Nat
  n_cols : Nat
  references : List E
  queries : List E
  similarity_function : SimilarityFunction E V
  is_symmetric : Bool
  _scores : ObjMatrix V
  _index : Nat

/-- The field assignments of `Scores.__init__` (source lines 74-81): the state
a `Scores` object is given once the validation call has returned. -/
def Scores.init_state (references : List E) (queries : List E)
    (similarity_function : SimilarityFunction E V) (is_symmetric : Bool) : Scores E V :=
  { n_rows := references.length
    n_cols := queries.length
    references := references
    queries := queries
    similarity_function := similarity_function
    is_symmetric := is_symmetric
    _scores := { rows := references.length, cols := queries.length
                 entry := fun _ _ => Cell.empty }
    _index := 0 }

def references_assert_msg : String :=
  "Expected input argument references to be list or tuple or numpy.ndarray."

def queries_assert_msg : String :=
  "Expected input argument queries to be list or tuple or numpy.ndarray."

/-- Model of `Scores._validate_input_arguments`: it declares exactly the two parameters
`(references, queries)`; per the Python calling convention a call supplying any
other number of positional arguments raises `TypeError` before the body runs.
The body asserts that each argument is a list, tuple or numpy array. -/
def Scores._validate_input_arguments (args : List PyTypeTag) : Except PyError Unit :=
  match args with
  | [references, queries] =>
    if references.isSequenceLike then
      if queries.isSequenceLike then Except.ok ()
      else Except.error (PyError.assertionError queries_assert_msg)
    else Except.error (PyError.assertionError references_assert_msg)
  | _ => Except.error PyError.typeError

/-- An argument as passed to the constructor: its runtime type tag together
with its element contents (used only when it is sequence-like). -/
structure PySeq (E : Type) where
  tag : PyTypeTag
  elems : List E

def similarity_function_type_tag : PyTypeTag :=
  PyTypeTag.other "SimilarityFunction"

/-- Model of `Scores.__init__`: first the call
`Scores._validate_input_arguments(references, queries, similarity_function)` —
three positional arguments — then the field assignments. -/
def Scores.init (references : PySeq E) (queries : PySeq E)
    (similarity_function : SimilarityFunction E V) (is_symmetric : Bool) :
    Except PyError (Scores E V) :=
  match Scores._validate_input_arguments
      [references.tag, queries.tag, similarity_function_type_tag] with
  | Except.error e => Except.error e
  | Except.ok _ =>
    Except.ok (Scores.init_state references.elems queries.elems
      similarity_function is_symmetric)

/-- The `scores` property, at the level of values: `self._scores.copy()` has
the same shape and entries as `_scores` itself. The aliasing content of
`.copy()` (mutating the returned array does not affect the engine) is modelled
separately in the store-based section below. -/
def Scores.scores (s : Scores E V) : ObjMatrix V := s._scores

/-- One tuple yielded by `__next__`:
`(self.references[r, 0], self.queries[0, c]) + result`. Entity lookups are
`Option`-valued (`none` models an IndexError on an out-of-range row/column). -/
structure IterItem (E V : Type) where
  reference : Option E
  query : Option E
  components : List (Option V)
deriving DecidableEq

/-- Model of `__next__`: while `_index < self.scores.size`, unravel `_index` over the
row-major shape of `_scores`, yield the tuple for that cell and advance the
cursor; otherwise reset the cursor to 0 and raise StopIteration (`none`). -/
def Scores.next (s : Scores E V) : Option (IterItem E V) × Scores E V :=
  if s._index < s.scores.size then
    let r := s._index / s._scores.cols
    let c := s._index % s._scores.cols
    (some { reference := s.references[r]?
            query := s.queries[c]?
            components := (s._scores.entry r c).unpack },
     { s with _index := s._index + 1 })
  else
    (none, { s with _index := 0 })

/-- The tuple that a cursor value `k` corresponds to (row-major unravelling). -/
def Scores.itemAt (s : Scores E V) (k : Nat) : IterItem E V :=
  { reference := s.references[k / s._scores.cols]?
    query := s.queries[k % s._scores.cols]?
    components := (s._scores.entry (k / s._scores.cols) (k % s._scores.cols)).unpack }

/-- Fuelled driver of the iterator protocol: repeatedly call `__next__`,
collecting the yielded tuples until StopIteration, returning them together
with the engine state after the pass. -/
def Scores.iterAux : Nat → Scores E V → List (IterItem E V) × Scores E V
  | 0, s => ([], s)
  | fuel + 1, s =>
    match s.next with
    | (none, s1) => ([], s1)
    | (some it, s1) =>
      let p := Scores.iterAux fuel s1
      (it :: p.1, p.2)

/-- One full `for` pass over the engine (enough fuel to reach StopIteration
from any cursor position `≤ size`). -/
def Scores.iterate (s : Scores E V) : List (IterItem E V) × Scores E V :=
  Scores.iterAux (s._scores.size + 1) s

/-- Model of `Scores._chose_parallel_implementation`: early-return `False` when the
similarity function is not an instance of `ParallelSimilarityFunction`, then
`True` exactly when both dimensions exceed 1. -/
def Scores._chose_parallel_implementation (s : Scores E V) : Bool :=
  if !s.similarity_function.is_parallel then false
  else if 1 < s.n_rows ∧ 1 < s.n_cols then true
  else false

/-- The raw matrix returned by the batched capability call in
`calculate_parallel`: the symmetry keyword is passed through exactly when the
capability's signature mentions `is_symmetric`, and is omitted otherwise. -/
def Scores.parallel_call_result (s : Scores E V) : ObjMatrix V :=
  if s.similarity_function.accepts_symmetric then
    s.similarity_function.compute_scores_parallel s.references s.queries
      (some s.is_symmetric)
  else
    s.similarity_function.compute_scores_parallel s.references s.queries none

/-- Model of `Scores.calculate_parallel`: one batched call; its result is assigned
wholesale to `_scores` (`self._scores = ...`), with no shape check. -/
def Scores.calculate_parallel (s : Scores E V) : Scores E V :=
  { s with _scores := s.parallel_call_result }

/-- The symmetric inner loop of `calculate_sequential`:
`for i_query, query in enumerate(self.queries[0, i_ref:self.n_cols], start=i_ref)`,
writing the computed score at `[i_ref][i_query]` and mirroring the value that
was just stored at `[i_ref][i_query]` into `[i_query][i_ref]`. Returns the
updated matrix and the list of `(i_ref, i_query)` pairs handed to
`compute_scores`, in call order. -/
def Scores.symInner (compute : E → E → SVal V) (reference : E) (i_ref : Nat) :
    Nat → List E → ObjMatrix V → Option (ObjMatrix V × List (Nat × Nat))
  | _, [], m => some (m, [])
  | j, query :: rest, m =>
    match m.set i_ref j (Cell.val (compute reference query)) with
    | none => none
    | some m1 =>
      match m1.set j i_ref (m1.entry i_ref j) with
      | none => none
      | some m2 =>
        match Scores.symInner compute reference i_ref (j + 1) rest m2 with
        | none => none
        | some (m3, tr) => some (m3, (i_ref, j) :: tr)

/-- The non-symmetric inner loop of `calculate_sequential`:
`for i_query, query in enumerate(self.queries[0, :self.n_cols])`. -/
def Scores.rowInner (compute : E → E → SVal V) (reference : E) (i_ref : Nat) :
    Nat → List E → ObjMatrix V → Option (ObjMatrix V × List (Nat × Nat))
  | _, [], m => some (m, [])
  | j, query :: rest, m =>
    match m.set i_ref j (Cell.val (compute reference query)) with
    | none => none
    | some m1 =>
      match Scores.rowInner compute reference i_ref (j + 1) rest m1 with
      | none => none
      | some (m2, tr) => some (m2, (i_ref, j) :: tr)

/-- The outer loop of `calculate_sequential`:
`for i_ref, reference in enumerate(self.references[:self.n_rows, 0])`,
dispatching on `is_symmetric` for the inner loop. -/
def Scores.seqOuter (compute : E → E → SVal V) (is_symmetric : Bool)
    (queriesRow : List E) (n_cols : Nat) :
    Nat → List E → ObjMatrix V → Option (ObjMatrix V × List (Nat × Nat))
  | _, [], m => some (m, [])
  | i, reference :: rest, m =>
    match (if is_symmetric then
        Scores.symInner compute reference i i ((queriesRow.take n_cols).drop i) m
      else
        Scores.rowInner compute reference i 0 (queriesRow.take n_cols) m) with
    | none => none
    | some (m1, tr1) =>
      match Scores.seqOuter compute is_symmetric queriesRow n_cols (i + 1) rest m1 with
      | none => none
      | some (m2, tr2) => some (m2, tr1 ++ tr2)

/-- Model of `Scores.calculate_sequential`: the naive double loop. Returns the engine
with the filled matrix together with the instrumentation trace of
`(i_ref, i_query)` pairs passed to `compute_scores`, in call order; `none`
models an IndexError raised by an out-of-bounds matrix write. -/
def Scores.calculate_sequential (s : Scores E V) :
    Option (Scores E V × List (Nat × Nat)) :=
  match Scores.seqOuter s.similarity_function.compute_scores s.is_symmetric
      s.queries s.n_cols 0 (s.references.take s.n_rows) s._scores with
  | none => none
  | some (m, tr) => some ({ s with _scores := m }, tr)

/-- Model of `Scores.calculate`: dispatch on `_chose_parallel_implementation`. -/
def Scores.calculate (s : Scores E V) : Option (Scores E V) :=
  if s._chose_parallel_implementation then some s.calculate_parallel
  else Option.map Prod.fst s.calculate_sequential

/-- A store of allocated numpy array objects; an array object reference is an
index into the store. Used to give `.copy()` its aliasing meaning. -/
abbrev Store (V : Type) : Type := List (ObjMatrix V)

/-- Reading the array object a pointer refers to. -/
def Store.read (σ : Store V) (p : Nat) : Option (ObjMatrix V) :=
  σ[p]?

/-- A caller mutating the array object at pointer `p` in place. -/
def Store.write (σ : Store V) (p : Nat) (m : ObjMatrix V) : Store V :=
  List.set σ p m

/-- The number of allocated objects. -/
def Store.card (σ : Store V) : Nat := List.length σ

/-- The engine as seen by the store model: it owns the pointer to its internal
`_scores` array. -/
structure ScoresRef where
  matrix_ptr : Nat

/-- The `scores` property, store model: `return self._scores.copy()` allocates
a fresh array object holding the same contents as the internal one and returns
the fresh pointer, leaving the internal pointer untouched. -/
def ScoresRef.scores_accessor (s : ScoresRef) (σ : Store V) : Nat × Store V :=
  (σ.card,
   List.concat σ ((σ.read s.matrix_ptr).getD
     { rows := 0, cols := 0, entry := fun _ _ => Cell.empty }))

end ScoresModel

/-- A pairwise-only similarity function over `Nat` entities and `Int` score
components, returning score tuples; used to instantiate the theorems. -/
def exPairSim : SimilarityFunction Nat Int :=
  { is_parallel := false
    compute_scores := fun r q => SVal.tup [Int.ofNat (r + q), Int.ofNat (r * q)]
    accepts_symmetric := false
    compute_scores_parallel := fun rs qs _ =>
      { rows := rs.length, cols := qs.length, entry := fun _ _ => Cell.empty } }

/-- A batch-capable similarity function whose batched path returns a 3 by 3
matrix regardless of the input sizes. -/
def exBadParallelSim : SimilarityFunction Nat Int :=
  { is_parallel := true
    compute_scores := fun r q => SVal.scalar (Int.ofNat (r + q))
    accepts_symmetric := false
    compute_scores_parallel := fun _ _ _ =>
      { rows := 3, cols := 3, entry := fun _ _ => Cell.val (SVal.scalar 7) } }

/-- A symmetric 2 by 2 engine over the same entity list twice. -/
def exSymScores : Scores Nat Int :=
  Scores.init_state [10, 20] [10, 20] exPairSim true

/-- A non-symmetric 2 by 1 engine. -/
def exRectScores : Scores Nat Int :=
  Scores.init_state [10, 20] [30] exPairSim false

/-- A 2 by 2 engine whose batched capability returns a 3 by 3 matrix. -/
def exBadShapeScores : Scores Nat Int :=
  Scores.init_state [0, 1] [0, 1] exBadParallelSim false

/-- The engine produced by running `calculate_parallel` on `exBadShapeScores`. -/
def exBadShapeResult : Scores Nat Int :=
  exBadShapeScores.calculate_parallel

/-- A one-object store holding a 1 by 1 matrix. -/
def exStore : Store Int :=
  [{ rows := 1, cols := 1, entry := fun _ _ => Cell.val (SVal.scalar 5) }]

/-- A 2 by 2 matrix a caller might write over a returned copy. -/
def exOverwrite : ObjMatrix Int :=
  { rows := 2, cols := 2, entry := fun _ _ => Cell.val (SVal.scalar 9) }

section IterationLemmas

variable {E V : Type}

theorem Scores.iterAux_spec (fuel : Nat) :
    ∀ s : Scores E V, 0 < fuel → s._scores.size < s._index + fuel →
      Scores.iterAux fuel s =
        ((List.range' s._index (s._scores.size - s._index)).map s.itemAt,
         { s with _index := 0 }) := by
  induction fuel with
  | zero =>
    intro s hf h
    omega
  | succ fuel ih =>
    intro s hf h
    by_cases hlt : s._index < s._scores.size
    · have hcond : s._index < s.scores.size := hlt
      have hnext : s.next =
          (some (s.itemAt s._index), { s with _index := s._index + 1 }) := by
        simp only [Scores.next, if_pos hcond]
        rfl
      have hih := ih { s with _index := s._index + 1 }
        (by show 0 < fuel; omega)
        (by show s._scores.size < s._index + 1 + fuel; omega)
      calc Scores.iterAux (fuel + 1) s
          = (s.itemAt s._index ::
              (Scores.iterAux fuel { s with _index := s._index + 1 }).1,
             (Scores.iterAux fuel { s with _index := s._index + 1 }).2) := by
            rw [Scores.iterAux, hnext]
        _ = ((List.range' s._index (s._scores.size - s._index)).map s.itemAt,
             { s with _index := 0 }) := by
            rw [hih]
            have hrange : List.range' s._index (s._scores.size - s._index) =
                s._index ::
                  List.range' (s._index + 1) (s._scores.size - (s._index + 1)) := by
              have hd : s._scores.size - s._index =
                  (s._scores.size - (s._index + 1)) + 1 := by omega
              rw [hd, List.range'_succ]
            rw [hrange]
            rfl
    · have hcond : ¬ s._index < s.scores.size := hlt
      have hnext : s.next = (none, { s with _index := 0 }) := by
        simp only [Scores.next, if_neg hcond]
      have hsize : s._scores.size - s._index = 0 := by omega
      rw [Scores.iterAux, hnext, hsize]
      rfl

theorem Scores.iterate_spec (s : Scores E V) :
    s.iterate =
      ((List.range' s._index (s._scores.size - s._index)).map s.itemAt,
       { s with _index := 0 }) :=
  Scores.iterAux_spec (s._scores.size + 1) s (by omega) (by omega)

theorem Scores.index_zero_eta (s : Scores E V) (h : s._index = 0) :
    ({ s with _index := 0 } : Scores E V) = s := by
  cases s
  simp_all

end IterationLemmas

section IterationClaims

variable {E V : Type}

/-- C5: one full iteration pass over an engine with cursor 0 and matrix shaped
(n_rows, n_cols) yields exactly `n_rows * n_cols` tuples in row-major order:
the tuple at position `i * n_cols + j` is the reference at index `i`, the
query at index `j`, followed by the score at `[i, j]` unpacked into its
components if it is a tuple, or the single score value otherwise. -/
theorem Scores.iteration_row_major (s : Scores E V)
    (h0 : s._index = 0) (hr : s._scores.rows = s.n_rows)
    (hc : s._scores.cols = s.n_cols) :
    s.iterate.1.length = s.n_rows * s.n_cols ∧
    ∀ i j, i < s.n_rows → j < s.n_cols →
      s.iterate.1[i * s.n_cols + j]? =
        some { reference := s.references[i]?, query := s.queries[j]?
               components := (s._scores.entry i j).unpack } := by
  rw [Scores.iterate_spec, h0]
  constructor
  · simp [ObjMatrix.size, hr, hc]
  · intro i j hi hj
    have hcolpos : 0 < s._scores.cols := by omega
    have hlt1 : i * s.n_cols + j < (i + 1) * s.n_cols := by
      have := Nat.add_lt_add_left hj (i * s.n_cols)
      simpa [Nat.succ_mul] using this
    have hlt2 : (i + 1) * s.n_cols ≤ s.n_rows * s.n_cols :=
      Nat.mul_le_mul_right s.n_cols hi
    have hk : i * s.n_cols + j < s._scores.size := by
      rw [ObjMatrix.size, hr, hc]
      omega
    have hdiv : (i * s.n_cols + j) / s._scores.cols = i := by
      rw [hc, Nat.mul_comm i s.n_cols, Nat.mul_add_div (by omega : 0 < s.n_cols)]
      rw [Nat.div_eq_of_lt hj, Nat.add_zero]
    have hmod : (i * s.n_cols + j) % s._scores.cols = j := by
      rw [hc, Nat.mul_comm i s.n_cols, Nat.mul_add_mod, Nat.mod_eq_of_lt hj]
    simp only [Nat.sub_zero, List.getElem?_map,
      List.getElem?_range' 0 1 (by simpa using hk), Option.map_some]
    simp [Scores.itemAt, hdiv, hmod]

/-- C8: when the iteration cursor reaches `n_rows * n_cols` the sequence
signals exhaustion and resets the cursor to zero, and a second full iteration
begun after an exhausted pass reproduces exactly the same tuple sequence. -/
theorem Scores.iteration_restartable (s : Scores E V)
    (h0 : s._index = 0) (hr : s._scores.rows = s.n_rows)
    (hc : s._scores.cols = s.n_cols) :
    ({ s with _index := s.n_rows * s.n_cols } : Scores E V).next =
      (none, { s with _index := 0 }) ∧
    s.iterate.2 = s ∧
    s.iterate.2.iterate.1 = s.iterate.1 := by
  have hsize : s._scores.size = s.n_rows * s.n_cols := by
    rw [ObjMatrix.size, hr, hc]
  have h2 : s.iterate.2 = s := by
    rw [Scores.iterate_spec]
    exact Scores.index_zero_eta s h0
  refine ⟨?_, h2, by rw [h2]⟩
  have hcond : ¬ ({ s with _index := s.n_rows * s.n_cols } : Scores E V)._index <
      ({ s with _index := s.n_rows * s.n_cols } : Scores E V).scores.size := by
    show ¬ s.n_rows * s.n_cols < s._scores.size
    omega
  simp [Scores.next, hcond]

/-- C9: constructing with `references = []` (resp. `queries = []`) yields a
matrix with zero rows (resp. zero columns), and iterating the fresh engine
immediately signals exhaustion without yielding any tuple. -/
theorem Scores.empty_input_behaviour (references queries : List E)
    (f : SimilarityFunction E V) (b : Bool)
    (h : references = [] ∨ queries = []) :
    ((references = [] → (Scores.init_state references queries f b)._scores.rows = 0) ∧
     (queries = [] → (Scores.init_state references queries f b)._scores.cols = 0)) ∧
    (Scores.init_state references queries f b).next.1 = none ∧
    (Scores.init_state references queries f b).iterate.1 = [] := by
  have hsize : (Scores.init_state references queries f b)._scores.size = 0 := by
    rcases h with h | h <;> simp [Scores.init_state, ObjMatrix.size, h]
  refine ⟨⟨fun h1 => ?_, fun h2 => ?_⟩, ?_, ?_⟩
  · simp [Scores.init_state, h1]
  · simp [Scores.init_state, h2]
  · have hcond : ¬ (Scores.init_state references queries f b)._index <
        (Scores.init_state references queries f b).scores.size := by
      show ¬ (Scores.init_state references queries f b)._index <
        (Scores.init_state references queries f b)._scores.size
      rw [hsize]
      omega
    simp [Scores.next, hcond]
  · rw [Scores.iterate_spec, hsize]
    simp [Scores.init_state]

/-- C2: `calculate` selects the batched strategy iff the similarity function
carries the batch capability and both dimensions exceed 1; in every other
case it selects the naive sequential strategy. -/
theorem Scores.strategy_selection (s : Scores E V) :
    (s._chose_parallel_implementation = true ↔
      (s.similarity_function.is_parallel = true ∧ 1 < s.n_rows ∧ 1 < s.n_cols)) ∧
    (s._chose_parallel_implementation = true →
      s.calculate = some s.calculate_parallel) ∧
    (s._chose_parallel_implementation = false →
      s.calculate = Option.map Prod.fst s.calculate_sequential) := by
  refine ⟨?_, fun h => by simp [Scores.calculate, h],
    fun h => by simp [Scores.calculate, h]⟩
  unfold Scores._chose_parallel_implementation
  by_cases hp : s.similarity_function.is_parallel = true
  · by_cases hd : 1 < s.n_rows ∧ 1 < s.n_cols
    · simp [hp, hd]
    · simp [hp, hd]
  · simp [hp, Bool.not_eq_true s.similarity_function.is_parallel ▸ hp]

end IterationClaims

section ConstructionAndAccessorClaims

variable {E V : Type}

/-- C1 (code bug in the source): `__init__` passes three positional arguments
to the two-parameter staticmethod `_validate_input_arguments`, so the
validation call raises `TypeError` before any isinstance check runs: every
construction fails, even with list inputs, contradicting both the claim and
the class docstring example. -/
theorem Scores.init_always_raises_type_error (references queries : PySeq E)
    (f : SimilarityFunction E V) (b : Bool) :
    Scores.init references queries f b = Except.error PyError.typeError := rfl

/-- C6 counterexample: a 2 by 2 engine whose batched capability returns a
3 by 3 matrix: `calculate` takes the batched path, raises no error, and
assigns the mismatched 3 by 3 matrix while `n_rows`/`n_cols` stay 2. -/
theorem Scores.shape_mismatch_counterexample :
    exBadShapeScores.calculate = some exBadShapeResult ∧
    exBadShapeResult._scores.rows = 3 ∧ exBadShapeResult._scores.cols = 3 ∧
    exBadShapeResult.n_rows = 2 ∧ exBadShapeResult.n_cols = 2 :=
  ⟨rfl, rfl, rfl, rfl, rfl⟩

/-- C6 amended: the source has no shape check: whenever the batched strategy
is selected, `calculate` succeeds and assigns the batched call's result
wholesale to `_scores` while `n_rows` and `n_cols` keep their constructed
values, so a mismatched shape is accepted silently rather than rejected. -/
theorem Scores.parallel_result_assigned_unchecked (s : Scores E V)
    (h : s._chose_parallel_implementation = true) :
    s.calculate = some s.calculate_parallel ∧
    s.calculate_parallel._scores = s.parallel_call_result ∧
    s.calculate_parallel.n_rows = s.n_rows ∧
    s.calculate_parallel.n_cols = s.n_cols :=
  ⟨by simp [Scores.calculate, h], rfl, rfl, rfl⟩

/-- Witness for the amended C6 theorem at the concrete mismatched engine. -/
theorem Scores.parallel_result_assigned_unchecked_witness :
    exBadShapeScores.calculate = some exBadShapeScores.calculate_parallel ∧
    exBadShapeScores.calculate_parallel._scores = exBadShapeScores.parallel_call_result ∧
    exBadShapeScores.calculate_parallel.n_rows = exBadShapeScores.n_rows ∧
    exBadShapeScores.calculate_parallel.n_cols = exBadShapeScores.n_cols :=
  Scores.parallel_result_assigned_unchecked exBadShapeScores rfl

/-- C7: the `scores` accessor returns a defensive copy: the returned array is
a fresh object distinct from the engine-internal one, holds the same contents,
and a caller mutation through the returned object leaves the engine-internal
matrix (hence every subsequent `scores` read) unchanged. -/
theorem ScoresRef.scores_defensive_copy (σ : Store V) (s : ScoresRef)
    (hp : s.matrix_ptr < σ.card) (m : ObjMatrix V) :
    (s.scores_accessor σ).1 ≠ s.matrix_ptr ∧
    (s.scores_accessor σ).2.read (s.scores_accessor σ).1 = σ.read s.matrix_ptr ∧
    ((s.scores_accessor σ).2.write (s.scores_accessor σ).1 m).read s.matrix_ptr =
      σ.read s.matrix_ptr := by
  have hlen : s.matrix_ptr < σ.length := hp
  refine ⟨by show σ.length ≠ s.matrix_ptr; omega, ?_, ?_⟩
  · show (σ.concat ((σ.read s.matrix_ptr).getD _))[σ.length]? = σ.read s.matrix_ptr
    rw [List.concat_eq_append, List.getElem?_concat_length]
    have : σ.read s.matrix_ptr = some σ[s.matrix_ptr] := List.getElem?_eq_getElem hlen
    rw [this]
    rfl
  · show ((σ.concat ((σ.read s.matrix_ptr).getD _)).set σ.length m)[s.matrix_ptr]? =
      σ.read s.matrix_ptr
    rw [List.getElem?_set_ne (by omega : σ.length ≠ s.matrix_ptr)]
    rw [List.concat_eq_append, List.getElem?_append_left hlen]
    rfl

/-- Witness for the C7 theorem at a concrete one-object store. -/
theorem ScoresRef.scores_defensive_copy_witness :
    ((ScoresRef.mk 0).scores_accessor exStore).1 ≠ 0 ∧
    ((ScoresRef.mk 0).scores_accessor exStore).2.read
        ((ScoresRef.mk 0).scores_accessor exStore).1 = exStore.read 0 ∧
    (((ScoresRef.mk 0).scores_accessor exStore).2.write
        ((ScoresRef.mk 0).scores_accessor exStore).1 exOverwrite).read 0 =
      exStore.read 0 :=
  ScoresRef.scores_defensive_copy exStore (ScoresRef.mk 0) (by decide) exOverwrite

/-- Witness for the C2 theorem at a concrete batch-capable 2 by 2 engine. -/
theorem Scores.strategy_selection_witness :
    (exBadShapeScores._chose_parallel_implementation = true ↔
      (exBadShapeScores.similarity_function.is_parallel = true ∧
        1 < exBadShapeScores.n_rows ∧ 1 < exBadShapeScores.n_cols)) ∧
    (exBadShapeScores._chose_parallel_implementation = true →
      exBadShapeScores.calculate = some exBadShapeScores.calculate_parallel) ∧
    (exBadShapeScores._chose_parallel_implementation = false →
      exBadShapeScores.calculate =
        Option.map Prod.fst exBadShapeScores.calculate_sequential) :=
  Scores.strategy_selection exBadShapeScores

/-- Witness for the C5 theorem at a concrete 2 by 1 engine. -/
theorem Scores.iteration_row_major_witness :
    exRectScores.iterate.1.length = 2 * 1 ∧
    exRectScores.iterate.1[1 * 1 + 0]? =
      some { reference := exRectScores.references[1]?, query := exRectScores.queries[0]?
             components := (exRectScores._scores.entry 1 0).unpack } :=
  ⟨(Scores.iteration_row_major exRectScores rfl rfl rfl).1,
   (Scores.iteration_row_major exRectScores rfl rfl rfl).2 1 0 (by decide) (by decide)⟩

/-- Witness for the C8 theorem at a concrete 2 by 1 engine. -/
theorem Scores.iteration_restartable_witness :
    ({ exRectScores with _index := exRectScores.n_rows * exRectScores.n_cols } :
        Scores Nat Int).next = (none, { exRectScores with _index := 0 }) ∧
    exRectScores.iterate.2 = exRectScores ∧
    exRectScores.iterate.2.iterate.1 = exRectScores.iterate.1 :=
  Scores.iteration_restartable exRectScores rfl rfl rfl

/-- Witness for the C9 theorem at concrete empty references. -/
theorem Scores.empty_input_behaviour_witness :
    (Scores.init_state ([] : List Nat) [30] exPairSim false)._scores.rows = 0 ∧
    (Scores.init_state ([] : List Nat) [30] exPairSim false).next.1 = none ∧
    (Scores.init_state ([] : List Nat) [30] exPairSim false).iterate.1 = [] :=
  ⟨(Scores.empty_input_behaviour [] [30] exPairSim false (Or.inl rfl)).1.1 rfl,
   (Scores.empty_input_behaviour [] [30] exPairSim false (Or.inl rfl)).2.1,
   (Scores.empty_input_behaviour [] [30] exPairSim false (Or.inl rfl)).2.2⟩

end ConstructionAndAccessorClaims

section SequentialFillLemmas

variable {E V : Type}

theorem ObjMatrix.set_spec {V : Type} {m : ObjMatrix V} {i j : Nat} {v : Cell V}
    (hi : i < m.rows) (hj : j < m.cols) :
    m.set i j v = some
      { m with entry := fun a b => if a = i ∧ b = j then v else m.entry a b } := by
  rw [ObjMatrix.set, if_pos ⟨hi, hj⟩]

theorem ObjMatrix.pair_write_spec {V : Type} {m : ObjMatrix V} {i j : Nat} {v : Cell V}
    (h1 : i < m.rows) (h2 : j < m.cols) (h3 : j < m.rows) (h4 : i < m.cols) :
    ∃ m1 m2, m.set i j v = some m1 ∧ m1.set j i (m1.entry i j) = some m2 ∧
      m2.rows = m.rows ∧ m2.cols = m.cols ∧
      ∀ a b, m2.entry a b =
        if (a = i ∧ b = j) ∨ (a = j ∧ b = i) then v else m.entry a b := by
  refine ⟨_, _, ObjMatrix.set_spec h1 h2, ObjMatrix.set_spec h3 h4, rfl, rfl, ?_⟩
  intro a b
  show (if a = j ∧ b = i then (if i = i ∧ j = j then v else m.entry i j)
        else if a = i ∧ b = j then v else m.entry a b) =
    if (a = i ∧ b = j) ∨ (a = j ∧ b = i) then v else m.entry a b
  rw [if_pos (⟨rfl, rfl⟩ : i = i ∧ j = j)]
  split_ifs <;> first | rfl | tauto

theorem Scores.symInner_spec (compute : E → E → SVal V) (r : E) (i : Nat)
    (ql : List E) :
    ∀ (j0 : Nat) (m : ObjMatrix V),
      i < m.rows → i < m.cols → j0 + ql.length ≤ m.rows → j0 + ql.length ≤ m.cols →
      ∃ m', Scores.symInner compute r i j0 ql m =
          some (m', (List.range' j0 ql.length).map (fun j => (i, j))) ∧
        m'.rows = m.rows ∧ m'.cols = m.cols ∧ (m.symmEntry → m'.symmEntry) := by
  induction ql with
  | nil =>
    intro j0 m hir hic hjr hjc
    exact ⟨m, rfl, rfl, rfl, fun h => h⟩
  | cons q rest ih =>
    intro j0 m hir hic hjr hjc
    rw [List.length_cons] at hjr hjc
    obtain ⟨m1, m2, hs1, hs2, hrows2, hcols2, hent2⟩ :=
      ObjMatrix.pair_write_spec (i := i) (j := j0) (v := Cell.val (compute r q))
        hir (by omega) (by omega) hic
    obtain ⟨m', hrec, hrows', hcols', hsym'⟩ :=
      ih (j0 + 1) m2 (by omega) (by omega) (by omega) (by omega)
    refine ⟨m', ?_, by omega, by omega, ?_⟩
    · rw [Scores.symInner]
      simp only [hs1, hs2, hrec, List.length_cons, List.range'_succ, List.map_cons]
    · intro hs
      apply hsym'
      intro a b
      rw [hent2 a b, hent2 b a]
      by_cases h : (a = i ∧ b = j0) ∨ (a = j0 ∧ b = i)
      · rw [if_pos h, if_pos (by tauto)]
      · rw [if_neg h, if_neg (by tauto)]
        exact hs a b

theorem Scores.seqOuter_spec (compute : E → E → SVal V) (qs : List E) (nc : Nat)
    (rl : List E) :
    ∀ (i0 : Nat) (m : ObjMatrix V),
      (qs.take nc).length ≤ m.rows → (qs.take nc).length ≤ m.cols →
      i0 + rl.length ≤ m.rows → i0 + rl.length ≤ m.cols →
      ∃ m', Scores.seqOuter compute true qs nc i0 rl m =
          some (m', (List.range' i0 rl.length).flatMap
            (fun i => (List.range' i ((qs.take nc).length - i)).map (fun j => (i, j)))) ∧
        m'.rows = m.rows ∧ m'.cols = m.cols ∧ (m.symmEntry → m'.symmEntry) := by
  induction rl with
  | nil =>
    intro i0 m hq1 hq2 hr1 hr2
    exact ⟨m, rfl, rfl, rfl, fun h => h⟩
  | cons r rest ih =>
    intro i0 m hq1 hq2 hr1 hr2
    rw [List.length_cons] at hr1 hr2
    have hdl : ((qs.take nc).drop i0).length = (qs.take nc).length - i0 :=
      List.length_drop i0 (qs.take nc)
    obtain ⟨m1, hstep, hrows1, hcols1, hsym1⟩ :=
      Scores.symInner_spec compute r i0 ((qs.take nc).drop i0) i0 m
        (by omega) (by omega) (by omega) (by omega)
    obtain ⟨m', hrec, hrows', hcols', hsym'⟩ :=
      ih (i0 + 1) m1 (by omega) (by omega) (by omega) (by omega)
    refine ⟨m', ?_, by omega, by omega, fun hs => hsym' (hsym1 hs)⟩
    rw [Scores.seqOuter]
    simp only [if_true, hstep, hrec, List.length_cons, List.range'_succ,
      List.flatMap_cons, hdl]

end SequentialFillLemmas

section TraceLemmas

theorem tri_succ (d : Nat) : (d + 1) * (d + 2) / 2 = (d + 1) + d * (d + 1) / 2 := by
  have h : (d + 1) * (d + 2) = d * (d + 1) + 2 * (d + 1) := by ring
  rw [h, Nat.add_mul_div_left _ _ (by norm_num : (0 : Nat) < 2), Nat.add_comm]

theorem symTrace_length (ℓ : Nat) :
    ∀ (i0 n : Nat), i0 + ℓ = n →
      ((List.range' i0 ℓ).flatMap
        (fun i => (List.range' i (n - i)).map (fun j => (i, j)))).length
        = ℓ * (ℓ + 1) / 2 := by
  induction ℓ with
  | zero =>
    intro i0 n h
    simp
  | succ ℓ ih =>
    intro i0 n h
    rw [List.range'_succ, List.flatMap_cons, List.length_append,
      ih (i0 + 1) n (by omega)]
    have h1 : ((List.range' i0 (n - i0)).map
        (fun j => ((i0, j) : Nat × Nat))).length = ℓ + 1 := by
      rw [List.length_map, List.length_range']
      omega
    rw [h1, tri_succ]

theorem count_map_pair (i : Nat) (l : List Nat) (a b : Nat) :
    ((l.map (fun j => (i, j))).count (a, b)) = if a = i then l.count b else 0 := by
  induction l with
  | nil => simp
  | cons x t ih =>
    rw [List.map_cons, List.count_cons, ih, List.count_cons]
    simp only [beq_iff_eq, Prod.mk.injEq]
    split_ifs <;> omega

theorem count_range' (b s n : Nat) :
    (List.range' s n).count b = if s ≤ b ∧ b < s + n then 1 else 0 := by
  by_cases h : s ≤ b ∧ b < s + n
  · rw [if_pos h]
    exact List.count_eq_one_of_mem (List.nodup_range' s n)
      (by rw [List.mem_range'_1]; exact h)
  · rw [if_neg h]
    exact List.count_eq_zero.mpr (by rw [List.mem_range'_1]; tauto)

theorem symTrace_count (a b ℓ : Nat) :
    ∀ (i0 n : Nat), i0 + ℓ = n → a ≤ b → b < n →
      ((List.range' i0 ℓ).flatMap
        (fun i => (List.range' i (n - i)).map (fun j => (i, j)))).count (a, b)
        = if i0 ≤ a ∧ a < i0 + ℓ then 1 else 0 := by
  induction ℓ with
  | zero =>
    intro i0 n h hab hbn
    rw [if_neg (by omega)]
    simp
  | succ ℓ ih =>
    intro i0 n h hab hbn
    rw [List.range'_succ, List.flatMap_cons, List.count_append, count_map_pair,
      count_range', ih (i0 + 1) n (by omega) hab hbn]
    split_ifs <;> omega

end TraceLemmas

section SequentialFillClaims

variable {E V : Type}

/-- C3: on an n-by-n symmetric engine over the same entity collection,
`calculate_sequential` completes and invokes the pairwise compute operation
exactly `n * (n + 1) / 2` times (the instrumentation trace of compute calls
has that length), not `n * n` times. -/
theorem Scores.symmetric_call_count (s : Scores E V) (n : Nat)
    (hsym : s.is_symmetric = true) (hrq : s.references = s.queries)
    (hnr : s.n_rows = n) (hnc : s.n_cols = n)
    (hrl : s.references.length = n)
    (hmr : s._scores.rows = n) (hmc : s._scores.cols = n) :
    ∃ s' tr, s.calculate_sequential = some (s', tr) ∧
      tr.length = n * (n + 1) / 2 := by
  have hql : s.queries.length = n := by rw [← hrq]; exact hrl
  have hrlen : (s.references.take s.n_rows).length = n := by
    rw [List.length_take]; omega
  have hqlen : (s.queries.take s.n_cols).length = n := by
    rw [List.length_take]; omega
  obtain ⟨m', hout, hr', hc', hs'⟩ :=
    Scores.seqOuter_spec s.similarity_function.compute_scores s.queries s.n_cols
      (s.references.take s.n_rows) 0 s._scores
      (by omega) (by omega) (by omega) (by omega)
  rw [hrlen, hqlen] at hout
  refine ⟨{ s with _scores := m' }, _, ?_, symTrace_length n 0 n (by omega)⟩
  simp only [Scores.calculate_sequential, hsym, hout]

/-- C4: on a symmetric engine over the same entity collection (in the same
order) whose matrix starts symmetric (as the all-empty constructed matrix is),
`calculate_sequential` completes with `matrix[i, j] = matrix[j, i]` for all
i, j, and each unordered index pair is computed by exactly one compute call
(the call at the upper-triangle pair), which supplies both cells. -/
theorem Scores.symmetric_matrix_invariant (s : Scores E V) (n : Nat)
    (hsym : s.is_symmetric = true) (hrq : s.references = s.queries)
    (hnr : s.n_rows = n) (hnc : s.n_cols = n)
    (hrl : s.references.length = n)
    (hmr : s._scores.rows = n) (hmc : s._scores.cols = n)
    (hms : s._scores.symmEntry) :
    ∃ s' tr, s.calculate_sequential = some (s', tr) ∧
      (∀ i j, s'._scores.entry i j = s'._scores.entry j i) ∧
      ∀ i j, i ≤ j → j < n → tr.count (i, j) = 1 := by
  have hql : s.queries.length = n := by rw [← hrq]; exact hrl
  have hrlen : (s.references.take s.n_rows).length = n := by
    rw [List.length_take]; omega
  have hqlen : (s.queries.take s.n_cols).length = n := by
    rw [List.length_take]; omega
  obtain ⟨m', hout, hr', hc', hs'⟩ :=
    Scores.seqOuter_spec s.similarity_function.compute_scores s.queries s.n_cols
      (s.references.take s.n_rows) 0 s._scores
      (by omega) (by omega) (by omega) (by omega)
  rw [hrlen, hqlen] at hout
  refine ⟨{ s with _scores := m' },
    (List.range' 0 n).flatMap (fun i => (List.range' i (n - i)).map (fun j => (i, j))),
    ?_, fun i j => hs' hms i j, fun i j hij hjn => ?_⟩
  · simp only [Scores.calculate_sequential, hsym, hout]
  · rw [symTrace_count i j n 0 n (by omega) hij hjn, if_pos (by omega)]

/-- C10: on a symmetric engine whose matrix shape is square (n_rows = n_cols),
every write performed by `calculate_sequential` — the upper-triangle write and
the mirror write — is within the matrix bounds, so the fill completes without
an IndexError. -/
theorem Scores.symmetric_writes_in_bounds (s : Scores E V) (n : Nat)
    (hsym : s.is_symmetric = true) (hnr : s.n_rows = n) (hnc : s.n_cols = n)
    (hmr : s._scores.rows = n) (hmc : s._scores.cols = n) :
    ∃ out, s.calculate_sequential = some out := by
  have hqlen : (s.queries.take s.n_cols).length ≤ n := by
    rw [List.length_take]; omega
  have hrlen : (s.references.take s.n_rows).length ≤ n := by
    rw [List.length_take]; omega
  obtain ⟨m', hout, hr', hc', hs'⟩ :=
    Scores.seqOuter_spec s.similarity_function.compute_scores s.queries s.n_cols
      (s.references.take s.n_rows) 0 s._scores
      (by omega) (by omega) (by omega) (by omega)
  refine ⟨({ s with _scores := m' },
    (List.range' 0 (s.references.take s.n_rows).length).flatMap
      (fun i => (List.range' i ((s.queries.take s.n_cols).length - i)).map
        (fun j => (i, j)))), ?_⟩
  simp only [Scores.calculate_sequential, hsym, hout]

/-- Witness for the C3 theorem at a concrete symmetric 2 by 2 engine:
3 compute calls, not 4. -/
theorem Scores.symmetric_call_count_witness :
    Option.map (fun p => p.2.length) exSymScores.calculate_sequential = some 3 := by
  obtain ⟨s', tr, h1, h2⟩ :=
    Scores.symmetric_call_count exSymScores 2 rfl rfl rfl rfl rfl rfl rfl
  rw [h1]
  show some tr.length = some 3
  rw [h2]

/-- Witness for the C4 theorem at a concrete symmetric 2 by 2 engine. -/
theorem Scores.symmetric_matrix_invariant_witness :
    Option.map (fun p => p.1._scores.entry 0 1) exSymScores.calculate_sequential =
      Option.map (fun p => p.1._scores.entry 1 0) exSymScores.calculate_sequential ∧
    Option.map (fun p => p.2.count (0, 1)) exSymScores.calculate_sequential = some 1 := by
  obtain ⟨s', tr, h1, h2, h3⟩ :=
    Scores.symmetric_matrix_invariant exSymScores 2 rfl rfl rfl rfl rfl rfl rfl
      (fun a b => rfl)
  rw [h1]
  exact ⟨by simp [h2 0 1], by simp [h3 0 1 (by omega) (by omega)]⟩

/-- Witness for the C10 theorem at a concrete symmetric 2 by 2 engine. -/
theorem Scores.symmetric_writes_in_bounds_witness :
    exSymScores.calculate_sequential ≠ none := by
  obtain ⟨out, h⟩ :=
    Scores.symmetric_writes_in_bounds exSymScores 2 rfl rfl rfl rfl rfl
  rw [h]
  simp

end SequentialFillClaims
